import Mathlib

/-!
# RCON client: packet codec, connection flag and response reassembly

A shallow embedding of `src/rcon.c` (with `src/include/rcon.h`).

Modelling conventions.

* Bytes and `uint32_t` values are natural numbers; every place where the C
  code truncates to 32 bits carries an explicit `% 2 ^ 32`.
* The process-wide globals `rcon_packet_id`, `rcon_is_connected` and `errno`
  are fields of `World`, which is threaded through every operation.
* The socket is a script: `inbox` lists what successive `recv` calls will
  deliver (a run of bytes, or a failure with its `errno`); when the script
  is exhausted `recv` keeps returning `0` if the peer has closed and `-1`
  with `EAGAIN` (the one second receive timeout) otherwise.  `outbox` lists
  how many bytes successive `send` calls will accept; an exhausted script
  accepts everything.  `wire` is the byte sequence written so far.
* `struct rcon_packet` lives in memory as on an LP64 little-endian host:
  `size` at byte 0, `id` at 4, `type` at 8, four bytes of padding, the
  `body` pointer at 16 and `empty` at 24 (32 bytes in all).  The three
  header fields at offsets 0, 4 and 8 are what `rcon_send_packet` itself
  relies on when it sends the first twelve bytes of the struct.
* Memory allocation always succeeds.
* Loops that the C code does not bound take a `fuel` argument that counts
  the calls of `recv`/`send` (or loop rounds); `Run.outOfFuel` is the result
  of a loop that is still running when the fuel is spent, and
  `Run.nullDeref` is a read through a `NULL` pointer.
-/

namespace RCON

/-! ## Constants -/

def SERVERDATA_AUTH : Nat := 3
def SERVERDATA_AUTH_RESPONSE : Nat := 2
def SERVERDATA_EXECCOMMAND : Nat := 2
def SERVERDATA_RESPONSE_VALUE : Nat := 0

/-- Linux value of the `errno.h` code for a receive timeout. -/
def EAGAIN : Nat := 11
/-- Linux value of the `errno.h` code `rcon_auth` returns on rejection. -/
def EACCES : Nat := 13
def EINVAL : Nat := 22
def EDESTADDRREQ : Nat := 89
def EISCONN : Nat := 106
def ENOTCONN : Nat := 107

/-! ## Data model -/

/-- Data structure describing one Source RCON protocol message
(`struct rcon_packet`); `body` is the content of the allocated body buffer. -/
structure rcon_packet where
  size : Nat
  id : Nat
  type : Nat
  body : List Nat
  empty : Nat
  deriving DecidableEq, Repr

/-- One scripted answer of `recv`: some bytes, or `-1` with an `errno`. -/
inductive RecvEv where
  | data (bs : List Nat)
  | err (e : Nat)
  deriving DecidableEq, Repr

/-- One scripted answer of `send`: a number of bytes accepted, or `-1` with
an `errno`. -/
inductive SendEv where
  | accept (k : Nat)
  | err (e : Nat)
  deriving DecidableEq, Repr

/-- Process-wide state of `rcon.c` together with the scripted environment. -/
structure World where
  rcon_packet_id : Nat
  rcon_is_connected : Bool
  errno : Nat
  inbox : List RecvEv
  peer_closed : Bool
  outbox : List SendEv
  wire : List Nat
  socket_err : Option Nat
  setsockopt_err : Option Nat
  connect_err : Option Nat
  close_err : Option Nat
  deriving DecidableEq, Repr

/-- Outcome of running a C function: it returned `a` leaving the world `w`,
it read through a `NULL` pointer, or it was still looping when the fuel ran
out. -/
inductive Run (α : Type) where
  | done (a : α) (w : World)
  | nullDeref
  | outOfFuel
  deriving DecidableEq, Repr

/-! ## Memory helpers -/

/-- Four bytes of a `uint32_t` as stored by a little-endian host. -/
def le32 (n : Nat) : List Nat :=
  [n % 256, n / 256 % 256, n / 65536 % 256, n / 16777216 % 256]

/-- Read the `uint32_t` stored at byte offset `off` of `mem`. -/
def load32 (mem : List Nat) (off : Nat) : Nat :=
  mem.getD off 0 + 256 * mem.getD (off + 1) 0 + 65536 * mem.getD (off + 2) 0
    + 16777216 * mem.getD (off + 3) 0

/-- Store the bytes `bs` at byte offset `off` of the region `mem`; the region
keeps its length. -/
def writeAt (mem : List Nat) (off : Nat) (bs : List Nat) : List Nat :=
  (mem.take off ++ bs ++ mem.drop (off + bs.length)).take mem.length

/-- Characters of the C string starting at the first byte of `s`. -/
def cstr (s : List Nat) : List Nat := s.takeWhile (fun b => b ≠ 0)

def strlen (s : List Nat) : Nat := (cstr s).length

/-! ## Socket primitives -/

/-- One call `recv(rcon_sockfd, dst, len, 0)`: `none` stands for `-1`,
`some bs` for a return value of `bs.length` with `bs` stored at `dst`. -/
def recv (w : World) (len : Nat) : Option (List Nat) × World :=
  match w.inbox with
  | [] => if w.peer_closed then (some [], w) else (none, { w with errno := EAGAIN })
  | RecvEv.err e :: rest => (none, { w with inbox := rest, errno := e })
  | RecvEv.data bs :: rest =>
    if bs.length ≤ len then (some bs, { w with inbox := rest })
    else (some (bs.take len), { w with inbox := RecvEv.data (bs.drop len) :: rest })

/-- One call `send(rcon_sockfd, src, len, 0)` with `bs` the `len` bytes at
`src`: `none` stands for `-1`, `some k` for a return value of `k`. -/
def send (w : World) (bs : List Nat) : Option Nat × World :=
  match w.outbox with
  | [] => (some bs.length, { w with wire := w.wire ++ bs })
  | SendEv.err e :: rest => (none, { w with outbox := rest, errno := e })
  | SendEv.accept k :: rest =>
    (some (min k bs.length), { w with outbox := rest, wire := w.wire ++ bs.take k })

/-! ## `rcon_create_packet` -/

/-- Form a protocol message from `body` and `message_type` (lines 66-85).
The body buffer is `calloc(strlen(body) + 1)` filled by
`strncpy(.., body, strlen(body))`: the characters of `body` and one NUL. -/
def rcon_create_packet (body : List Nat) (message_type : Nat) (w : World) :
    rcon_packet × World :=
  let id := (w.rcon_packet_id + 1) % 2 ^ 32
  ({ size := (strlen body + 10) % 2 ^ 32
     id := id
     type := message_type
     body := cstr body ++ [0]
     empty := 0 },
   { w with rcon_packet_id := id })

/-! ## `rcon_send_packet` -/

/-- One send loop of `rcon_send_packet`: `buf` is the region to transmit,
`bytes_sent` the loop variable.  The result is `some errno` for the early
`return errno` and `none` when the loop ran to its end. -/
def send_from : Nat → World → List Nat → Nat → Run (Option Nat)
  | 0, w, buf, bytes_sent =>
    if bytes_sent < buf.length then Run.outOfFuel else Run.done none w
  | fuel + 1, w, buf, bytes_sent =>
    if bytes_sent < buf.length then
      match send w (buf.drop bytes_sent) with
      | (none, w1) => Run.done (some w1.errno) w1
      | (some rval, w1) => send_from fuel w1 buf (bytes_sent + rval)
    else Run.done none w

/-- Continue with `k` after a send loop that ran to its end; the early
`return errno` of the loop, a crash and a loop that never ends are the result
of the whole function. -/
def Run.thenSend (r : Run (Option Nat)) (k : World → Run Nat) : Run Nat :=
  match r with
  | Run.done none w => k w
  | Run.done (some e) w => Run.done e w
  | Run.nullDeref => Run.nullDeref
  | Run.outOfFuel => Run.outOfFuel

/-- Send the provided packet to the server (lines 304-357): the twelve
header bytes of the struct, `strlen(body) + 1` bytes of the body buffer,
then the `empty` byte.  `none` is a `NULL` packet pointer. -/
def rcon_send_packet (fuel : Nat) (packet : Option rcon_packet) (w : World) : Run Nat :=
  if w.rcon_is_connected = false then Run.done ENOTCONN w
  else
    match packet with
    | none => Run.done EINVAL w
    | some p =>
      (send_from fuel w (le32 p.size ++ le32 p.id ++ le32 p.type) 0).thenSend fun w1 =>
      (send_from fuel w1 (cstr p.body ++ [0]) 0).thenSend fun w2 =>
      (send_from fuel w2 [p.empty] 0).thenSend fun w3 =>
      Run.done 0 w3

/-- Create a message of the given type with `message` as body and send it
(lines 284-297).  Allocation succeeds, so the created packet is never `NULL`
and the `rval = errno` branch does not arise. -/
def rcon_send (fuel : Nat) (message : List Nat) (message_type : Nat) (w : World) : Run Nat :=
  let created := rcon_create_packet message message_type w
  rcon_send_packet fuel (some created.1) created.2

/-! ## `rcon_recv_packet` -/

/-- One receive loop of `rcon_recv_packet`.  `mem` is the region the
destination pointer points into, `base` the byte offset of the field and
`stride` the size of the pointed-to type: the C expression `p + bytes_recd`
advances by `stride * bytes_recd` bytes (`stride` is 4 for the `uint32_t *`
pointers `&(packet->size)`, `&(packet->id)`, `&(packet->type)` and 1 for the
`char *` pointers `packet->body` and `&(packet->empty)`).  The result is
`none` for the early `return NULL` and the filled region otherwise. -/
def recv_into (stride : Nat) :
    Nat → World → List Nat → Nat → Nat → Nat → Run (Option (List Nat))
  | 0, w, mem, _, total, bytes_recd =>
    if bytes_recd < total then Run.outOfFuel else Run.done (some mem) w
  | fuel + 1, w, mem, base, total, bytes_recd =>
    if bytes_recd < total then
      match recv w (total - bytes_recd) with
      | (none, w1) => Run.done none w1
      | (some bs, w1) =>
        recv_into stride fuel w1 (writeAt mem (base + stride * bytes_recd) bs)
          base total (bytes_recd + bs.length)
    else Run.done (some mem) w

/-- Continue with `k` after a receive loop that filled its field; the early
`return NULL` of the loop (`none`), a crash and a loop that never ends are the
result of the whole function. -/
def Run.andThen {α β : Type} (r : Run (Option α)) (k : α → World → Run (Option β)) :
    Run (Option β) :=
  match r with
  | Run.done (some a) w => k a w
  | Run.done none w => Run.done none w
  | Run.nullDeref => Run.nullDeref
  | Run.outOfFuel => Run.outOfFuel

/-- Length of the body buffer, `packet->size - 9` in `uint32_t` arithmetic
(line 246). -/
def body_len (size : Nat) : Nat := (size + 2 ^ 32 - 9) % 2 ^ 32

/-- Pull a single protocol message from the socket (lines 198-276);
`none` is the `NULL` result.  `List.replicate 32 0` is the zeroed struct that
`calloc` returns; the five receive loops fill, in this order, `size` (byte 0),
`id` (byte 4), `type` (byte 8), the zeroed body buffer of `body_len` bytes and
`empty` (byte 24). -/
def rcon_recv_packet (fuel : Nat) (w : World) : Run (Option rcon_packet) :=
  if w.rcon_is_connected = false then Run.done none { w with errno := ENOTCONN }
  else
    (recv_into 4 fuel w (List.replicate 32 0) 0 4 0).andThen fun m1 w1 =>
    (recv_into 4 fuel w1 m1 4 4 0).andThen fun m2 w2 =>
    (recv_into 4 fuel w2 m2 8 4 0).andThen fun m3 w3 =>
    (recv_into 1 fuel w3 (List.replicate (body_len (load32 m3 0)) 0) 0
        (body_len (load32 m3 0)) 0).andThen fun body w4 =>
    (recv_into 1 fuel w4 m3 24 1 0).andThen fun m5 w5 =>
    Run.done (some { size := load32 m5 0
                     id := load32 m5 4
                     type := load32 m5 8
                     body := body
                     empty := m5.getD 24 0 }) w5

/-! ## `rcon_recv` -/

/-- Loop of `rcon_recv` (lines 172-187).  `message` is the C string held by
the result buffer (`none` while the pointer is `NULL`), `m_size` its
allocated size.  `strncat(message, body, b_size)` appends the characters of
the body buffer up to its first NUL, at most `b_size` of them. -/
def rcon_recv_loop (fuel : Nat) :
    Nat → World → Option (List Nat) → Nat → Run (Option (List Nat))
  | 0, _, _, _ => Run.outOfFuel
  | n + 1, w, message, m_size =>
    match rcon_recv_packet fuel w with
    | Run.nullDeref => Run.nullDeref
    | Run.outOfFuel => Run.outOfFuel
    | Run.done none w1 => Run.done message w1
    | Run.done (some packet) w1 =>
      let b_size := (packet.size + 2 ^ 32 - 10) % 2 ^ 32
      let held := if m_size = 1 then [] else message.getD []
      rcon_recv_loop fuel n w1 (some (held ++ cstr (packet.body.take b_size)))
        (m_size + b_size)

/-- Read one or more protocol messages and return their bodies as a single
string (lines 165-188); `none` is the `NULL` result. -/
def rcon_recv (fuel : Nat) (w : World) : Run (Option (List Nat)) :=
  rcon_recv_loop fuel fuel w none 1

/-! ## `rcon_auth`, `rcon_init`, `rcon_disconnect` -/

/-- Loop of `rcon_auth` (lines 41-55): the packet pointer returned by
`rcon_recv_packet` is read without a `NULL` test; `id == -1` compares the
`uint32_t` id with `(uint32_t) -1 = 4294967295`. -/
def rcon_auth_loop (fuel : Nat) : Nat → World → Run Nat
  | 0, _ => Run.outOfFuel
  | n + 1, w =>
    match rcon_recv_packet fuel w with
    | Run.nullDeref => Run.nullDeref
    | Run.outOfFuel => Run.outOfFuel
    | Run.done none _ => Run.nullDeref
    | Run.done (some packet) w1 =>
      if packet.type = SERVERDATA_AUTH_RESPONSE then
        if packet.id = 4294967295 then Run.done EACCES w1 else Run.done 0 w1
      else rcon_auth_loop fuel n w1

/-- Connect to the server and send the password (lines 14-58).  `connect`
fails with the `errno` held in `connect_err`, if any; the flag
`rcon_is_connected` is set as soon as `connect` has succeeded.  Allocation
succeeds, so the created packet is never `NULL`. -/
def rcon_auth (fuel : Nat) (password : List Nat) (w : World) : Run Nat :=
  if w.rcon_is_connected = true then Run.done EISCONN w
  else
    match w.connect_err with
    | some e => Run.done e { w with errno := e }
    | none =>
      let created :=
        rcon_create_packet password SERVERDATA_AUTH { w with rcon_is_connected := true }
      match rcon_send_packet fuel (some created.1) created.2 with
      | Run.nullDeref => Run.nullDeref
      | Run.outOfFuel => Run.outOfFuel
      | Run.done rval w3 =>
        if rval ≠ 0 then Run.done rval w3 else rcon_auth_loop fuel fuel w3

/-- Identify the target server (lines 113-141); `address` is `none` for a
`NULL` pointer.  The return value is zero or an `errno`. -/
def rcon_init (address : Option (List Nat)) (w : World) : Nat × World :=
  match address with
  | none => (EDESTADDRREQ, w)
  | some _ =>
    let w1 := { w with rcon_packet_id := 0, rcon_is_connected := false }
    match w1.socket_err with
    | some e => (e, { w1 with errno := e })
    | none =>
      match w1.setsockopt_err with
      | some e => (e, { w1 with errno := e })
      | none => (0, w1)

/-- Disconnect from the server (lines 91-104). -/
def rcon_disconnect (w : World) : Nat × World :=
  if w.rcon_is_connected = false then (ENOTCONN, w)
  else
    match w.close_err with
    | some e => (e, { w with errno := e })
    | none => (0, { w with rcon_is_connected := false })

/-! ## Frames -/

/-- Bytes of the wire frame carrying `body` with the given id and type. -/
def frame (id type : Nat) (body : List Nat) : List Nat :=
  le32 (body.length + 10) ++ le32 id ++ le32 type ++ body ++ [0] ++ [0]

/-- A world fresh from `rcon_init` with the given receive script. -/
def world0 (inbox : List RecvEv) (peer_closed : Bool) : World :=
  { rcon_packet_id := 0, rcon_is_connected := false, errno := 0, inbox := inbox,
    peer_closed := peer_closed, outbox := [], wire := [], socket_err := none,
    setsockopt_err := none, connect_err := none, close_err := none }

/-- A connected world with the given receive script. -/
def connected (inbox : List RecvEv) (peer_closed : Bool) : World :=
  { world0 inbox peer_closed with rcon_is_connected := true }

/-- Receive script holding the bytes `bs` ahead of the events `evs`. -/
def feed (bs : List Nat) (evs : List RecvEv) : List RecvEv :=
  if bs = [] then evs else RecvEv.data bs :: evs

/-- Successive calls of `rcon_recv_packet` starting in `w` return the packets
`ps`, in this order, and leave the world `w'`. -/
def Decodes (fuel : Nat) : World → List rcon_packet → World → Prop
  | w, [], w' => w' = w
  | w, p :: ps, w' =>
    ∃ w1, rcon_recv_packet fuel w = Run.done (some p) w1 ∧ Decodes fuel w1 ps w'

/-- A decoded packet whose buffer holds a NUL-free body of `size - 10` bytes
followed by the body terminator. -/
def WellFormed (p : rcon_packet) : Prop :=
  p.size = (cstr p.body).length + 10 ∧ p.size < 2 ^ 32 ∧ p.body = cstr p.body ++ [0]

/-- A send script without failures in which every call accepts at least one
byte. -/
def Accepting (s : List SendEv) : Prop :=
  ∀ ev ∈ s, ∃ k, 0 < k ∧ ev = SendEv.accept k

/-! ## Example data -/

/-- Bytes of the strings "foo", "bar", "baz" and "p". -/
def str_foo : List Nat := [102, 111, 111]
def str_p : List Nat := [112]

/-- Bytes of the address string "127.0.0.1". -/
def str_addr : List Nat := [49, 50, 55, 46, 48, 46, 48, 46, 49]

/-- Decoded `AUTH_RESPONSE` packet with id `0xFFFFFFFF` and an empty body. -/
def auth_rejection : rcon_packet :=
  { size := 10, id := 4294967295, type := 2, body := [0], empty := 0 }

/-- Decoded `RESPONSE_VALUE` packet with the given id and body. -/
def response_value (id : Nat) (body : List Nat) : rcon_packet :=
  { size := body.length + 10, id := id, type := 0, body := body ++ [0], empty := 0 }

/-- World in which `rcon_auth` has connected and sent the password "p" as its
first packet, with the given receive script still ahead. -/
def after_auth_send (inbox : List RecvEv) : World :=
  { connected inbox false with rcon_packet_id := 1, wire := frame 1 SERVERDATA_AUTH str_p }

/-! ## Auxiliary facts -/

theorem Run.andThen_some {α β : Type} (a : α) (w : World) (k : α → World → Run (Option β)) :
    (Run.done (some a) w).andThen k = k a w := rfl

theorem load32_le32 (n : Nat) (h : n < 2 ^ 32) (rest : List Nat) :
    load32 (le32 n ++ rest) 0 = n := by
  simp [load32, le32]
  omega

theorem writeAt_nil (mem : List Nat) (off : Nat) : writeAt mem off [] = mem := by
  simp [writeAt]

theorem writeAt_full (n : Nat) (bs : List Nat) (h : bs.length = n) :
    writeAt (List.replicate n 0) 0 bs = bs := by
  simp [writeAt, h]

theorem hdr_mem (a b c : List Nat) (ha : a.length = 4) (hb : b.length = 4) (hc : c.length = 4) :
    writeAt (writeAt (writeAt (List.replicate 32 0) 0 a) 4 b) 8 c
      = a ++ b ++ c ++ List.replicate 20 0 := by
  match a, b, c, ha, hb, hc with
  | [a0, a1, a2, a3], [b0, b1, b2, b3], [c0, c1, c2, c3], _, _, _ => rfl

theorem recv_feed (w : World) (h rest : List Nat) (evs : List RecvEv) (hne : h ≠ []) :
    recv { w with inbox := feed (h ++ rest) evs } h.length
      = (some h, { w with inbox := feed rest evs }) := by
  have h1 : h ++ rest ≠ [] := by simp [hne]
  simp only [recv, feed, h1, if_false]
  by_cases hr : rest = []
  · subst hr; simp
  · have : ¬ (h.length + rest.length ≤ h.length) := by
      have := List.length_pos.mpr hr
      omega
    simp [hr, this]

theorem recv_into_exit (stride fuel : Nat) (w : World) (mem : List Nat) (base total n : Nat)
    (h : ¬ n < total) : recv_into stride fuel w mem base total n = Run.done (some mem) w := by
  cases fuel <;> simp [recv_into, h]

theorem recv_into_whole (stride fuel : Nat) (w : World) (mem : List Nat) (base total : Nat)
    (h rest : List Nat) (evs : List RecvEv) (hlen : h.length = total) :
    recv_into stride (fuel + 1) { w with inbox := feed (h ++ rest) evs } mem base total 0
      = Run.done (some (writeAt mem base h)) { w with inbox := feed rest evs } := by
  by_cases h0 : h = []
  · subst h0
    simp at hlen
    subst hlen
    simp [recv_into, writeAt_nil]
  · have hpos : 0 < total := by
      have := List.length_pos.mpr h0
      omega
    have hr := recv_feed w h rest evs h0
    rw [hlen] at hr
    simp only [recv_into, hpos, if_true, Nat.sub_zero, hr, Nat.mul_zero, Nat.add_zero, Nat.zero_add]
    rw [recv_into_exit]
    omega


theorem final_mem (size id ty e : Nat) (hs : size < 2 ^ 32) (hi : id < 2 ^ 32)
    (ht : ty < 2 ^ 32) :
    load32 (writeAt (le32 size ++ le32 id ++ le32 ty ++ List.replicate 20 0) 24 [e]) 0 = size ∧
    load32 (writeAt (le32 size ++ le32 id ++ le32 ty ++ List.replicate 20 0) 24 [e]) 4 = id ∧
    load32 (writeAt (le32 size ++ le32 id ++ le32 ty ++ List.replicate 20 0) 24 [e]) 8 = ty ∧
    (writeAt (le32 size ++ le32 id ++ le32 ty ++ List.replicate 20 0) 24 [e]).getD 24 0 = e := by
  refine ⟨?_, ?_, ?_, ?_⟩
  · show size % 256 + 256 * (size / 256 % 256) + 65536 * (size / 65536 % 256)
      + 16777216 * (size / 16777216 % 256) = size
    omega
  · show id % 256 + 256 * (id / 256 % 256) + 65536 * (id / 65536 % 256)
      + 16777216 * (id / 16777216 % 256) = id
    omega
  · show ty % 256 + 256 * (ty / 256 % 256) + 65536 * (ty / 65536 % 256)
      + 16777216 * (ty / 16777216 % 256) = ty
    omega
  · rfl

theorem recv_packet_whole (fuel : Nat) (w : World) (size id ty e : Nat) (body rest : List Nat)
    (evs : List RecvEv) (hc : w.rcon_is_connected = true)
    (hs : size < 2 ^ 32) (hi : id < 2 ^ 32) (ht : ty < 2 ^ 32)
    (hb : body.length = body_len size) :
    rcon_recv_packet (fuel + 1)
        { w with inbox := feed (le32 size ++ le32 id ++ le32 ty ++ body ++ [e] ++ rest) evs }
      = Run.done (some { size := size, id := id, type := ty, body := body, empty := e })
          { w with inbox := feed rest evs } := by
  have e1 : le32 size ++ le32 id ++ le32 ty ++ body ++ [e] ++ rest
      = le32 size ++ (le32 id ++ (le32 ty ++ (body ++ ([e] ++ rest)))) := by
    simp only [List.append_assoc]
  have hm : load32 (le32 size ++ le32 id ++ le32 ty ++ List.replicate 20 0) 0 = size := by
    rw [List.append_assoc, List.append_assoc]
    exact load32_le32 size hs _
  obtain ⟨f0, f4, f8, f24⟩ := final_mem size id ty e hs hi ht
  have s1 := recv_into_whole 4 fuel w (List.replicate 32 0) 0 4 (le32 size)
    (le32 id ++ (le32 ty ++ (body ++ ([e] ++ rest)))) evs rfl
  have s2 := recv_into_whole 4 fuel w (writeAt (List.replicate 32 0) 0 (le32 size)) 4 4 (le32 id)
    (le32 ty ++ (body ++ ([e] ++ rest))) evs rfl
  have s3 := recv_into_whole 4 fuel w
    (writeAt (writeAt (List.replicate 32 0) 0 (le32 size)) 4 (le32 id)) 8 4 (le32 ty)
    (body ++ ([e] ++ rest)) evs rfl
  rw [hdr_mem (le32 size) (le32 id) (le32 ty) rfl rfl rfl] at s3
  have s4 := recv_into_whole 1 fuel w (List.replicate (body_len size) 0) 0 (body_len size) body
    ([e] ++ rest) evs hb
  rw [writeAt_full _ _ hb] at s4
  have s5 := recv_into_whole 1 fuel w (le32 size ++ le32 id ++ le32 ty ++ List.replicate 20 0)
    24 1 [e] rest evs rfl
  unfold rcon_recv_packet
  rw [if_neg (by simp [hc])]
  rw [e1, s1, Run.andThen_some, s2, Run.andThen_some, s3, Run.andThen_some, hm, s4,
    Run.andThen_some, s5, Run.andThen_some, f0, f4, f8, f24]

theorem Run.thenSend_none (w : World) (k : World → Run Nat) :
    (Run.done none w).thenSend k = k w := rfl

theorem take_drop_min (k : Nat) (l : List Nat) :
    l.take k ++ l.drop (min k l.length) = l := by
  by_cases h : k ≤ l.length
  · rw [Nat.min_eq_left h]
    exact List.take_append_drop k l
  · have h1 : l.length ≤ k := by omega
    rw [Nat.min_eq_right h1, List.take_of_length_le h1, List.drop_length]
    simp

theorem send_from_ok (fuel : Nat) : ∀ (w : World) (buf : List Nat) (sent : Nat),
    Accepting w.outbox → sent ≤ buf.length → buf.length - sent ≤ fuel →
    ∃ s, Accepting s ∧ send_from fuel w buf sent
      = Run.done none { w with outbox := s, wire := w.wire ++ buf.drop sent } := by
  induction fuel with
  | zero =>
    intro w buf sent ha hle hf
    have hs : sent = buf.length := by omega
    subst hs
    exact ⟨w.outbox, ha, by simp [send_from]⟩
  | succ n ih =>
    intro w buf sent ha hle hf
    by_cases hlt : sent < buf.length
    · rcases w with ⟨a1, a2, a3, a4, a5, ob, wr, a8, a9, a10, a11⟩
      have hdl : (buf.drop sent).length = buf.length - sent := by simp
      cases ob with
      | nil =>
        obtain ⟨s, hs, hrun⟩ := ih ⟨a1, a2, a3, a4, a5, [], wr ++ buf.drop sent, a8, a9, a10, a11⟩
          buf (sent + (buf.drop sent).length) ha (by rw [hdl]; omega) (by rw [hdl]; omega)
        refine ⟨s, hs, ?_⟩
        have hd : List.drop (sent + (List.drop sent buf).length) buf = [] := by
          apply List.drop_eq_nil_of_le
          rw [hdl]
          omega
        simp only [send_from, hlt, if_true, send]
        rw [hrun]
        simp only [hd, List.append_nil]
      | cons ev rest =>
        obtain ⟨k, hk, hev⟩ := ha ev (by simp)
        subst hev
        have har : Accepting rest := by
          intro e he
          exact ha e (by simp [he])
        obtain ⟨s, hs, hrun⟩ := ih
          ⟨a1, a2, a3, a4, a5, rest, wr ++ (buf.drop sent).take k, a8, a9, a10, a11⟩ buf
          (sent + min k (buf.drop sent).length) har
          (by rw [hdl]; omega) (by rw [hdl]; omega)
        refine ⟨s, hs, ?_⟩
        have hd : (buf.drop sent).take k ++ buf.drop (sent + min k (buf.drop sent).length)
            = buf.drop sent := by
          rw [← List.drop_drop]
          exact take_drop_min k (buf.drop sent)
        simp only [send_from, hlt, if_true, send]
        rw [hrun]
        simp only [List.append_assoc, hd]
    · have hs : sent = buf.length := by omega
      subst hs
      exact ⟨w.outbox, ha, by simp [send_from]⟩

theorem send_packet_ok (fuel : Nat) (p : rcon_packet) (w : World)
    (hc : w.rcon_is_connected = true) (ha : Accepting w.outbox)
    (hf : 12 ≤ fuel) (hb : (cstr p.body).length + 1 ≤ fuel) :
    ∃ s, Accepting s ∧ rcon_send_packet fuel (some p) w
      = Run.done 0 { w with outbox := s
                            wire := w.wire ++ (le32 p.size ++ le32 p.id ++ le32 p.type
                              ++ (cstr p.body ++ [0]) ++ [p.empty]) } := by
  rcases w with ⟨a1, a2, a3, a4, a5, ob, wr, a8, a9, a10, a11⟩
  simp only at hc ha
  subst hc
  obtain ⟨s1, hs1, h1⟩ := send_from_ok fuel ⟨a1, true, a3, a4, a5, ob, wr, a8, a9, a10, a11⟩
    (le32 p.size ++ le32 p.id ++ le32 p.type) 0 ha (Nat.zero_le _)
    (by simp [le32]; omega)
  obtain ⟨s2, hs2, h2⟩ := send_from_ok fuel
    ⟨a1, true, a3, a4, a5, s1, wr ++ (le32 p.size ++ le32 p.id ++ le32 p.type), a8, a9, a10, a11⟩
    (cstr p.body ++ [0]) 0 hs1 (Nat.zero_le _) (by simp; omega)
  obtain ⟨s3, hs3, h3⟩ := send_from_ok fuel
    ⟨a1, true, a3, a4, a5, s2,
      wr ++ (le32 p.size ++ le32 p.id ++ le32 p.type) ++ (cstr p.body ++ [0]), a8, a9, a10, a11⟩
    [p.empty] 0 hs2 (Nat.zero_le _) (by simp; omega)
  refine ⟨s3, hs3, ?_⟩
  simp only [List.drop_zero] at h1 h2 h3
  unfold rcon_send_packet
  rw [if_neg (by simp)]
  simp only []
  rw [h1, Run.thenSend_none, h2, Run.thenSend_none, h3, Run.thenSend_none]
  simp only [List.append_assoc]

theorem cstr_of_nonzero (l : List Nat) (h : ∀ b ∈ l, b ≠ 0) : cstr l = l := by
  unfold cstr
  rw [List.takeWhile_eq_self_iff]
  intro b hb
  simpa using h b hb

theorem cstr_append_nul (l rest : List Nat) (h : ∀ b ∈ l, b ≠ 0) :
    cstr (l ++ 0 :: rest) = l := by
  induction l with
  | nil => simp [cstr]
  | cons a t ih =>
    have ha : a ≠ 0 := h a (by simp)
    have ht : ∀ b ∈ t, b ≠ 0 := fun b hb => h b (by simp [hb])
    have := ih ht
    simp only [cstr] at this ⊢
    rw [List.cons_append, List.takeWhile_cons]
    simp only [ha, ne_eq, not_false_eq_true, decide_True, if_true]
    rw [this]

theorem body_len_eq (n : Nat) (h : n + 10 < 2 ^ 32) : body_len (n + 10) = n + 1 := by
  unfold body_len
  omega

theorem create_packet_eq (body : List Nat) (ty : Nat) (w : World)
    (hnul : ∀ b ∈ body, b ≠ 0) (hlen : body.length + 10 < 2 ^ 32) :
    rcon_create_packet body ty w
      = ({ size := body.length + 10, id := (w.rcon_packet_id + 1) % 2 ^ 32, type := ty,
           body := body ++ [0], empty := 0 },
         { w with rcon_packet_id := (w.rcon_packet_id + 1) % 2 ^ 32 }) := by
  unfold rcon_create_packet strlen
  rw [cstr_of_nonzero body hnul, Nat.mod_eq_of_lt hlen]

theorem create_packet_size (body : List Nat) (ty : Nat) (w : World) :
    (rcon_create_packet body ty w).1.size = (strlen body + 10) % 2 ^ 32 := rfl

theorem send_created_ok (fuel : Nat) (body : List Nat) (ty : Nat) (w : World)
    (hnul : ∀ b ∈ body, b ≠ 0) (hlen : body.length + 10 < 2 ^ 32)
    (hc : w.rcon_is_connected = true) (ha : Accepting w.outbox)
    (hfuel : body.length + 12 ≤ fuel) :
    ∃ s, Accepting s ∧
      rcon_send_packet fuel (some (rcon_create_packet body ty w).1)
          (rcon_create_packet body ty w).2
        = Run.done 0 { w with rcon_packet_id := (w.rcon_packet_id + 1) % 2 ^ 32
                              outbox := s
                              wire := w.wire ++ (le32 (body.length + 10)
                                ++ le32 ((w.rcon_packet_id + 1) % 2 ^ 32) ++ le32 ty
                                ++ (body ++ [0]) ++ [0]) } := by
  rw [create_packet_eq body ty w hnul hlen]
  have hcs : cstr (body ++ [0]) = body := cstr_append_nul body [] hnul
  obtain ⟨s, hs, hrun⟩ := send_packet_ok fuel
    { size := body.length + 10, id := (w.rcon_packet_id + 1) % 2 ^ 32, type := ty,
      body := body ++ [0], empty := 0 }
    { w with rcon_packet_id := (w.rcon_packet_id + 1) % 2 ^ 32 } hc ha (by omega)
    (by simp only [hcs]; omega)
  refine ⟨s, hs, ?_⟩
  simp only [hcs] at hrun
  exact hrun

theorem replicate_one_nonzero (n : Nat) : ∀ b ∈ List.replicate n 1, b ≠ 0 := by
  intro b hb
  rw [List.eq_of_mem_replicate hb]
  exact Nat.one_ne_zero

theorem create_packet_size_replicate (n ty : Nat) (w : World) :
    (rcon_create_packet (List.replicate n 1) ty w).1.size = (n + 10) % 2 ^ 32 := by
  rw [create_packet_size]
  unfold strlen
  rw [cstr_of_nonzero _ (replicate_one_nonzero n), List.length_replicate]

/-! ## Claims -/

/-- C1. Encode/decode round trip: for a NUL-free body with
`len(body) + 10 < 2^32`, any message type and any value of the packet id
counter, `rcon_send_packet` applied to the packet of `rcon_create_packet`
returns 0 (every `send` call accepting at least one byte), and
`rcon_recv_packet`, fed the bytes written in one run so that each read returns
the full requested count, returns a packet with the same type, the same id and
the same body; it is the created packet itself. -/
theorem encode_decode_round_trip (fuel : Nat) (body : List Nat) (ty : Nat) (ws wr : World)
    (hnul : ∀ b ∈ body, b ≠ 0) (hlen : body.length + 10 < 2 ^ 32) (hty : ty < 2 ^ 32)
    (hcs : ws.rcon_is_connected = true) (ha : Accepting ws.outbox)
    (hcr : wr.rcon_is_connected = true) (hfuel : body.length + 12 ≤ fuel) :
    ∃ ws' sent,
      rcon_send_packet fuel (some (rcon_create_packet body ty ws).1)
          (rcon_create_packet body ty ws).2 = Run.done 0 ws' ∧
      ws'.wire = ws.wire ++ sent ∧
      ∃ p, rcon_recv_packet fuel { wr with inbox := [RecvEv.data sent] }
            = Run.done (some p) { wr with inbox := [] } ∧
        p.type = ty ∧ p.id = (ws.rcon_packet_id + 1) % 2 ^ 32 ∧ cstr p.body = body ∧
        p = (rcon_create_packet body ty ws).1 := by
  obtain ⟨s, _, hrun⟩ := send_created_ok fuel body ty ws hnul hlen hcs ha hfuel
  obtain ⟨f, rfl⟩ : ∃ f, fuel = f + 1 := ⟨fuel - 1, by omega⟩
  have hid : (ws.rcon_packet_id + 1) % 2 ^ 32 < 2 ^ 32 := Nat.mod_lt _ (by norm_num)
  have hdec := recv_packet_whole f wr (body.length + 10) ((ws.rcon_packet_id + 1) % 2 ^ 32) ty 0
    (body ++ [0]) [] [] hcr hlen hid hty
    (by rw [body_len_eq _ hlen]; simp)
  have hfeed : ∀ l : List Nat, feed (le32 (body.length + 10) ++ l) []
      = [RecvEv.data (le32 (body.length + 10) ++ l)] := by
    intro l
    simp [feed, le32]
  have hfeed0 : feed [] ([] : List RecvEv) = [] := rfl
  simp only [List.append_assoc] at hdec
  rw [hfeed, hfeed0] at hdec
  refine ⟨_, le32 (body.length + 10) ++ le32 ((ws.rcon_packet_id + 1) % 2 ^ 32) ++ le32 ty
    ++ (body ++ [0]) ++ [0], hrun, rfl,
    { size := body.length + 10, id := (ws.rcon_packet_id + 1) % 2 ^ 32, type := ty,
      body := body ++ [0], empty := 0 }, ?_, rfl, rfl, ?_, ?_⟩
  · simp only [List.append_assoc, List.nil_append, List.append_nil] at hdec ⊢
    exact hdec
  · exact cstr_append_nul body [] hnul
  · rw [create_packet_eq body ty ws hnul hlen]

/-- Round trip of the body "foo" sent as type 2 over a socket that accepts five bytes, then one byte, then everything. -/
theorem encode_decode_round_trip_witness :
    ∃ ws' sent,
      rcon_send_packet 15 (some (rcon_create_packet [102, 111, 111] 2
          { connected [] false with outbox := [SendEv.accept 5, SendEv.accept 1] }).1)
          (rcon_create_packet [102, 111, 111] 2
          { connected [] false with outbox := [SendEv.accept 5, SendEv.accept 1] }).2
        = Run.done 0 ws' ∧
      ws'.wire = ({ connected [] false with
        outbox := [SendEv.accept 5, SendEv.accept 1] } : World).wire ++ sent ∧
      ∃ p, rcon_recv_packet 15 { connected [] false with inbox := [RecvEv.data sent] }
            = Run.done (some p) { connected [] false with inbox := [] } ∧
        p.type = 2 ∧ p.id = ((connected [] false).rcon_packet_id + 1) % 2 ^ 32 ∧
        cstr p.body = [102, 111, 111] ∧
        p = (rcon_create_packet [102, 111, 111] 2
          { connected [] false with outbox := [SendEv.accept 5, SendEv.accept 1] }).1 :=
  encode_decode_round_trip 15 [102, 111, 111] 2
    { connected [] false with outbox := [SendEv.accept 5, SendEv.accept 1] }
    (connected [] false) (by decide) (by decide) (by decide) rfl
    (by
      intro ev hev
      simp only [List.mem_cons, List.mem_singleton, List.not_mem_nil, or_false] at hev
      rcases hev with h | h
      · exact ⟨5, by decide, h⟩
      · exact ⟨1, by decide, h⟩)
    rfl (by decide)

/-- C2 (amended). Wire frame layout: for every NUL-free body with
`len(body) + 10 < 2^32` and every type, `rcon_send_packet` applied to the
packet of `rcon_create_packet` returns 0 (every `send` call accepting at least
one byte) and the bytes it writes are exactly
`size (4 bytes, little-endian) | id (4 bytes) | type (4 bytes) | body | 0 | 0`
with `size = len(body) + 10`, which is the packet's `size` field; the number
of bytes written is `size + 4`. -/
theorem wire_frame_layout (fuel : Nat) (body : List Nat) (ty : Nat) (w : World)
    (hnul : ∀ b ∈ body, b ≠ 0) (hlen : body.length + 10 < 2 ^ 32)
    (hc : w.rcon_is_connected = true) (ha : Accepting w.outbox)
    (hfuel : body.length + 12 ≤ fuel) :
    ∃ w' sent,
      rcon_send_packet fuel (some (rcon_create_packet body ty w).1)
          (rcon_create_packet body ty w).2 = Run.done 0 w' ∧
      w'.wire = w.wire ++ sent ∧
      sent = le32 (body.length + 10) ++ le32 ((w.rcon_packet_id + 1) % 2 ^ 32) ++ le32 ty
        ++ body ++ [0] ++ [0] ∧
      (rcon_create_packet body ty w).1.size = body.length + 10 ∧
      sent.length = (rcon_create_packet body ty w).1.size + 4 := by
  obtain ⟨s, _, hrun⟩ := send_created_ok fuel body ty w hnul hlen hc ha hfuel
  refine ⟨_, _, hrun, rfl, by simp only [List.append_assoc], ?_, ?_⟩
  · rw [create_packet_eq body ty w hnul hlen]
  · rw [create_packet_eq body ty w hnul hlen]
    simp [le32]

/-- Frame written for the body "foo" and type 3. -/
theorem wire_frame_layout_witness :
    ∃ w' sent,
      rcon_send_packet 15 (some (rcon_create_packet [102, 111, 111] 3 (connected [] false)).1)
          (rcon_create_packet [102, 111, 111] 3 (connected [] false)).2 = Run.done 0 w' ∧
      w'.wire = (connected [] false).wire ++ sent ∧
      sent = le32 (([102, 111, 111] : List Nat).length + 10)
        ++ le32 (((connected [] false).rcon_packet_id + 1) % 2 ^ 32) ++ le32 3
        ++ [102, 111, 111] ++ [0] ++ [0] ∧
      (rcon_create_packet [102, 111, 111] 3 (connected [] false)).1.size
        = ([102, 111, 111] : List Nat).length + 10 ∧
      sent.length = (rcon_create_packet [102, 111, 111] 3 (connected [] false)).1.size + 4 :=
  wire_frame_layout 15 [102, 111, 111] 3 (connected [] false) (by decide) (by decide) rfl
    (by intro ev hev; cases hev) (by decide)

/-- C2 (counterexample). For the NUL-free body of `2^32 - 10` bytes the `size`
field of the packet built by `rcon_create_packet` is 0, not
`len(body) + 10 = 2^32`. -/
theorem wire_frame_layout_counterexample :
    (∀ b ∈ List.replicate 4294967286 1, b ≠ 0) ∧
    (List.replicate 4294967286 1).length + 10 = 4294967296 ∧
    (rcon_create_packet (List.replicate 4294967286 1) SERVERDATA_EXECCOMMAND
      (connected [] false)).1.size = 0 := by
  refine ⟨replicate_one_nonzero 4294967286, ?_, ?_⟩
  · rw [List.length_replicate]
  · rw [create_packet_size_replicate]
    norm_num

theorem recv_closed (w : World) (len : Nat) (hi : w.inbox = []) (hp : w.peer_closed = true) :
    recv w len = (some [], w) := by
  simp [recv, hi, hp]

theorem recv_into_closed (stride fuel : Nat) (w : World) (base total n : Nat)
    (hi : w.inbox = []) (hp : w.peer_closed = true) (hn : n < total) :
    ∀ mem, recv_into stride fuel w mem base total n = Run.outOfFuel := by
  induction fuel with
  | zero =>
    intro mem
    simp [recv_into, hn]
  | succ k ih =>
    intro mem
    simp only [recv_into, hn, if_true, recv_closed w _ hi hp, writeAt_nil, List.length_nil,
      Nat.add_zero]
    exact ih mem

/-- C3 (code at a failing input). The frame of an `AUTH_RESPONSE` packet with
id `0xFFFFFFFF` and an empty body decodes to id `4294967295` when every read
returns the full requested count, and to id `255` when the same bytes arrive
one byte per read. -/
theorem chunked_decode_differs :
    rcon_recv_packet 9 (connected [RecvEv.data (frame 4294967295 2 [])] false)
      = Run.done (some { size := 10, id := 4294967295, type := 2, body := [0], empty := 0 })
          (connected [] false) ∧
    rcon_recv_packet 9
        (connected ((frame 4294967295 2 []).map fun b => RecvEv.data [b]) false)
      = Run.done (some { size := 10, id := 255, type := 2, body := [0], empty := 0 })
          (connected [] false) :=
  ⟨rfl, rfl⟩

/-- C8 (code at a failing input). When the peer has closed and nothing is
left to read, every `recv` returns 0 and the first read loop of
`rcon_recv_packet` repeats without progress: whatever the fuel, the function
has not returned. -/
theorem peer_close_never_returns (fuel : Nat) (w : World)
    (hc : w.rcon_is_connected = true) (hi : w.inbox = []) (hp : w.peer_closed = true) :
    rcon_recv_packet fuel w = Run.outOfFuel := by
  unfold rcon_recv_packet
  rw [if_neg (by simp [hc]), recv_into_closed 4 fuel w 0 4 0 hi hp (by decide)]
  rfl

/-- A connected socket with an empty receive script whose peer has closed. -/
theorem peer_close_never_returns_witness :
    rcon_recv_packet 1000 (connected [] true) = Run.outOfFuel :=
  peer_close_never_returns 1000 (connected [] true) rfl rfl rfl

theorem rcon_auth_after_send (fuel : Nat) (password : List Nat) (w w3 : World)
    (hflag : w.rcon_is_connected = false) (hconn : w.connect_err = none)
    (hsend : rcon_send_packet fuel
        (some (rcon_create_packet password SERVERDATA_AUTH
          { w with rcon_is_connected := true }).1)
        (rcon_create_packet password SERVERDATA_AUTH
          { w with rcon_is_connected := true }).2 = Run.done 0 w3) :
    rcon_auth fuel password w = rcon_auth_loop fuel fuel w3 := by
  rcases w with ⟨a1, a2, a3, a4, a5, a6, a7, a8, a9, a10, a11⟩
  simp only at hflag hconn hsend
  subst hflag hconn
  unfold rcon_auth
  rw [if_neg (by simp)]
  simp only [hsend]
  simp

theorem rcon_auth_loop_skip (fuel : Nat) (pre : List rcon_packet) :
    ∀ (n : Nat) (w1 w2 w3 : World) (p : rcon_packet),
      Decodes fuel w1 pre w2 → (∀ q ∈ pre, q.type ≠ SERVERDATA_AUTH_RESPONSE) →
      rcon_recv_packet fuel w2 = Run.done (some p) w3 →
      p.type = SERVERDATA_AUTH_RESPONSE → pre.length < n →
      rcon_auth_loop fuel n w1
        = Run.done (if p.id = 4294967295 then EACCES else 0) w3 := by
  induction pre with
  | nil =>
    intro n w1 w2 w3 p hd _ hp hpt hn
    obtain ⟨m, rfl⟩ : ∃ m, n = m + 1 := ⟨n - 1, by simp at hn; omega⟩
    simp only [Decodes] at hd
    subst hd
    simp only [rcon_auth_loop, hp, hpt, if_true]
    by_cases hid : p.id = 4294967295 <;> simp [hid]
  | cons q qs ih =>
    intro n w1 w2 w3 p hd hty hp hpt hn
    obtain ⟨m, rfl⟩ : ∃ m, n = m + 1 := ⟨n - 1, by simp at hn; omega⟩
    obtain ⟨wq, hq, hrest⟩ := hd
    have hqt : q.type ≠ SERVERDATA_AUTH_RESPONSE := hty q (by simp)
    simp only [rcon_auth_loop, hq, hqt, if_false]
    exact ih m wq w2 w3 p hrest (fun r hr => hty r (by simp [hr])) hp hpt
      (by simp at hn; omega)

/-- C4. Authentication outcome: after a successful connect and send, when the
packets decoded before the first `AUTH_RESPONSE` packet `p` (any number of
them, whatever their ids) all have another type, `rcon_auth` returns with the
result fixed by `p` alone: `EACCES` if and only if `p.id` is `0xFFFFFFFF`, and
0 for every other id. -/
theorem auth_outcome (fuel : Nat) (password : List Nat) (w w3 w4 w5 : World)
    (pre : List rcon_packet) (p : rcon_packet)
    (hflag : w.rcon_is_connected = false) (hconn : w.connect_err = none)
    (hsend : rcon_send_packet fuel
        (some (rcon_create_packet password SERVERDATA_AUTH
          { w with rcon_is_connected := true }).1)
        (rcon_create_packet password SERVERDATA_AUTH
          { w with rcon_is_connected := true }).2 = Run.done 0 w3)
    (hpre : Decodes fuel w3 pre w4)
    (hty : ∀ q ∈ pre, q.type ≠ SERVERDATA_AUTH_RESPONSE)
    (hp : rcon_recv_packet fuel w4 = Run.done (some p) w5)
    (hpt : p.type = SERVERDATA_AUTH_RESPONSE) (hfuel : pre.length < fuel) :
    ∃ rval, rcon_auth fuel password w = Run.done rval w5 ∧
      (rval = EACCES ↔ p.id = 4294967295) ∧ (p.id ≠ 4294967295 → rval = 0) := by
  rw [rcon_auth_after_send fuel password w w3 hflag hconn hsend,
    rcon_auth_loop_skip fuel pre fuel w3 w4 w5 p hpre hty hp hpt hfuel]
  refine ⟨_, rfl, ?_, ?_⟩
  · by_cases hid : p.id = 4294967295
    · simp [hid]
    · simp [hid, EACCES]
  · intro hid
    simp [hid]

/-- C5 (code at a failing input). After a successful connect and send, when
the first `rcon_recv_packet` of the authentication loop fails, `rcon_auth`
reads `packet->id` through the `NULL` pointer it was handed: it does not
return the decode error. -/
theorem auth_decode_failure_null_deref (fuel : Nat) (password : List Nat) (w w3 w4 : World)
    (hflag : w.rcon_is_connected = false) (hconn : w.connect_err = none)
    (hsend : rcon_send_packet fuel
        (some (rcon_create_packet password SERVERDATA_AUTH
          { w with rcon_is_connected := true }).1)
        (rcon_create_packet password SERVERDATA_AUTH
          { w with rcon_is_connected := true }).2 = Run.done 0 w3)
    (hrecv : rcon_recv_packet fuel w3 = Run.done none w4) (hfuel : 0 < fuel) :
    rcon_auth fuel password w = Run.nullDeref := by
  rw [rcon_auth_after_send fuel password w w3 hflag hconn hsend]
  obtain ⟨m, rfl⟩ : ∃ m, fuel = m + 1 := ⟨fuel - 1, by omega⟩
  simp only [rcon_auth_loop, hrecv]

theorem cstr_idem (l : List Nat) : cstr (cstr l) = cstr l := by
  apply cstr_of_nonzero
  intro b hb
  have := List.mem_takeWhile_imp hb
  simpa using this

theorem wellFormed_append (p : rcon_packet) (h : WellFormed p) :
    cstr (p.body.take ((p.size + 2 ^ 32 - 10) % 2 ^ 32)) = cstr p.body := by
  obtain ⟨hs, hlt, hb⟩ := h
  have hk : (p.size + 2 ^ 32 - 10) % 2 ^ 32 = (cstr p.body).length := by omega
  have ht : p.body.take (cstr p.body).length = cstr p.body := by
    have h := List.take_left (cstr p.body) [0]
    rw [← hb] at h
    exact h
  rw [hk, ht, cstr_idem]

theorem rcon_recv_loop_concat (fuel : Nat) (ps : List rcon_packet) :
    ∀ (n : Nat) (w w' w'' : World) (msg : Option (List Nat)) (m_size : Nat),
      m_size = (msg.getD []).length + 1 →
      Decodes fuel w ps w' → (∀ p ∈ ps, WellFormed p) →
      rcon_recv_packet fuel w' = Run.done none w'' → ps.length < n →
      rcon_recv_loop fuel n w msg m_size
        = Run.done (if ps = [] then msg
            else some (msg.getD [] ++ (ps.map fun p => cstr p.body).flatten)) w'' := by
  induction ps with
  | nil =>
    intro n w w' w'' msg m_size _ hd _ hfail hn
    obtain ⟨m, rfl⟩ : ∃ m, n = m + 1 := ⟨n - 1, by simp at hn; omega⟩
    simp only [Decodes] at hd
    subst hd
    simp only [rcon_recv_loop, hfail, if_true]
  | cons p ps ih =>
    intro n w w' w'' msg m_size hm hd hwf hfail hn
    obtain ⟨m, rfl⟩ : ∃ m, n = m + 1 := ⟨n - 1, by simp at hn; omega⟩
    obtain ⟨w1, hp, hrest⟩ := hd
    have hwfp : WellFormed p := hwf p (by simp)
    have happ := wellFormed_append p hwfp
    have hk : (p.size + 2 ^ 32 - 10) % 2 ^ 32 = (cstr p.body).length := by
      obtain ⟨hs, hlt, _⟩ := hwfp
      omega
    have hheld : (if m_size = 1 then [] else msg.getD []) = msg.getD [] := by
      by_cases h1 : m_size = 1
      · have : (msg.getD []).length = 0 := by omega
        rw [if_pos h1, List.length_eq_zero.mp this]
      · rw [if_neg h1]
    simp only [rcon_recv_loop, hp]
    rw [hheld, happ, hk]
    rw [ih m w1 w' w'' (some (msg.getD [] ++ cstr p.body))
      (m_size + (cstr p.body).length) (by simp [hm]; omega) hrest
      (fun q hq => hwf q (by simp [hq])) hfail (by simp at hn; omega)]
    by_cases hps : ps = []
    · subst hps
      simp
    · simp [hps]

theorem body_len_small (size : Nat) (h : size < 10) :
    body_len size = if size = 9 then 0 else size + 4294967287 := by
  unfold body_len
  split <;> omega

theorem rcon_init_not_connected (address : List Nat) (w : World) :
    (rcon_init (some address) w).2.rcon_is_connected = false := by
  unfold rcon_init
  simp only []
  split
  · rfl
  · split <;> rfl

theorem rcon_disconnect_not_connected (w : World) (hcl : w.close_err = none) :
    (rcon_disconnect w).2.rcon_is_connected = false := by
  unfold rcon_disconnect
  by_cases hc : w.rcon_is_connected = false
  · simp [hc]
  · rw [if_neg hc]
    simp [hcl]

/-- One `RESPONSE_VALUE` packet, then an `AUTH_RESPONSE` with id `0xFFFFFFFF`: `rcon_auth` returns `EACCES`. -/
theorem auth_outcome_witness :
    ∃ rval,
      rcon_auth 9 str_p
          (world0 [RecvEv.data (frame 3 0 str_foo ++ frame 4294967295 2 [])] false)
        = Run.done rval (after_auth_send []) ∧
      (rval = EACCES ↔ auth_rejection.id = 4294967295) ∧
      (auth_rejection.id ≠ 4294967295 → rval = 0) :=
  auth_outcome 9 str_p
    (world0 [RecvEv.data (frame 3 0 str_foo ++ frame 4294967295 2 [])] false)
    (after_auth_send [RecvEv.data (frame 3 0 str_foo ++ frame 4294967295 2 [])])
    (after_auth_send [RecvEv.data (frame 4294967295 2 [])])
    (after_auth_send [])
    [response_value 3 str_foo] auth_rejection rfl rfl rfl ⟨_, rfl, rfl⟩
    (by decide) rfl rfl (by decide)

/-- The server accepts the password packet and then stays silent: the first receive times out. -/
theorem auth_decode_failure_null_deref_witness :
    rcon_auth 9 str_p (world0 [] false) = Run.nullDeref :=
  auth_decode_failure_null_deref 9 str_p (world0 [] false) (after_auth_send [])
    { after_auth_send [] with errno := EAGAIN } rfl rfl rfl rfl (by decide)

/-- C7 (amended). When the very first decode attempt of `rcon_recv` fails
(for instance by a timeout with no response packet), `rcon_recv` returns
`NULL`, the failure value its caller reports as an error, not the empty
string. -/
theorem empty_response_is_null (fuel : Nat) (w w' : World)
    (hfail : rcon_recv_packet fuel w = Run.done none w') (hfuel : 0 < fuel) :
    rcon_recv fuel w = Run.done none w' := by
  unfold rcon_recv
  rw [rcon_recv_loop_concat fuel [] fuel w w w' none 1 rfl rfl (by simp) hfail hfuel]
  rfl

/-- No response packet before the timeout. -/
theorem empty_response_is_null_witness :
    rcon_recv 5 (connected [] false)
      = Run.done none { connected [] false with errno := EAGAIN } :=
  empty_response_is_null 5 (connected [] false) { connected [] false with errno := EAGAIN }
    rfl (by decide)

/-- C7 (counterexample). With no response packet before the timeout
`rcon_recv` returns `NULL`, not the empty string. -/
theorem empty_response_counterexample :
    rcon_recv 5 (connected [] false)
      = Run.done none { connected [] false with errno := EAGAIN } ∧
    rcon_recv 5 (connected [] false)
      ≠ Run.done (some []) { connected [] false with errno := EAGAIN } := by
  decide

/-- C9 (amended). Commands require a connection: in every state in which the
flag `rcon_is_connected` is false (the state `rcon_init` leaves, the state
after an `rcon_auth` whose connect failed, the state after a successful
`rcon_disconnect`) `rcon_send` returns the non-zero error `ENOTCONN` and
writes no bytes to the socket. -/
theorem send_requires_connection (fuel : Nat) (message : List Nat) (ty : Nat) (w : World)
    (h : w.rcon_is_connected = false) :
    ∃ w', rcon_send fuel message ty w = Run.done ENOTCONN w' ∧ ENOTCONN ≠ 0 ∧
      w'.wire = w.wire ∧ w'.rcon_is_connected = false := by
  refine ⟨(rcon_create_packet message ty w).2, ?_, by decide, rfl, h⟩
  unfold rcon_send rcon_send_packet
  simp only []
  rw [if_pos]
  exact h

/-- The state `rcon_init` leaves, even when started from a connected world. -/
theorem send_requires_connection_witness :
    ∃ w', rcon_send 9 str_foo SERVERDATA_EXECCOMMAND
          (rcon_init (some str_addr) (connected [] false)).2 = Run.done ENOTCONN w' ∧
      ENOTCONN ≠ 0 ∧
      w'.wire = (rcon_init (some str_addr) (connected [] false)).2.wire ∧
      w'.rcon_is_connected = false :=
  send_requires_connection 9 str_foo SERVERDATA_EXECCOMMAND
    (rcon_init (some str_addr) (connected [] false)).2
    (rcon_init_not_connected str_addr (connected [] false))

/-- C9 (counterexample). After `rcon_init`, an `rcon_auth` that is rejected
with `EACCES` leaves the connection flag set, and the following `rcon_send`
returns 0 and writes the command frame to the socket. -/
theorem send_after_rejected_auth :
    rcon_init (some str_addr) (world0 [RecvEv.data (frame 4294967295 2 [])] false)
      = (0, world0 [RecvEv.data (frame 4294967295 2 [])] false) ∧
    rcon_auth 9 str_p (world0 [RecvEv.data (frame 4294967295 2 [])] false)
      = Run.done EACCES (after_auth_send []) ∧
    rcon_send 9 str_foo SERVERDATA_EXECCOMMAND (after_auth_send [])
      = Run.done 0 { after_auth_send [] with
          rcon_packet_id := 2
          wire := frame 1 SERVERDATA_AUTH str_p ++ frame 2 SERVERDATA_EXECCOMMAND str_foo } :=
  ⟨rfl, rfl, rfl⟩

/-- C10 (amended). No size check on decode: for every incoming frame whose
size field is less than 10, `rcon_recv_packet` uses the body length
`(size - 9) mod 2^32`, which is 0 for size 9 and `size + 4294967287` for a
smaller size, and when the reads deliver that many body bytes and the final
byte it returns the packet; it reports no malformed-frame error. -/
theorem small_size_not_rejected (fuel : Nat) (w : World) (size id ty e : Nat)
    (body rest : List Nat) (evs : List RecvEv) (hc : w.rcon_is_connected = true)
    (hs : size < 10) (hi : id < 2 ^ 32) (ht : ty < 2 ^ 32)
    (hb : body.length = if size = 9 then 0 else size + 4294967287) :
    body_len size = (if size = 9 then 0 else size + 4294967287) ∧
    rcon_recv_packet (fuel + 1)
        { w with inbox := feed (le32 size ++ le32 id ++ le32 ty ++ body ++ [e] ++ rest) evs }
      = Run.done (some { size := size, id := id, type := ty, body := body, empty := e })
          { w with inbox := feed rest evs } :=
  ⟨body_len_small size hs,
    recv_packet_whole fuel w size id ty e body rest evs hc (by omega) hi ht
      (by rw [hb, body_len_small size hs])⟩

/-- A frame with size field 9: no body byte, then the final byte. -/
theorem small_size_not_rejected_witness :
    body_len 9 = (if 9 = 9 then 0 else 9 + 4294967287) ∧
    rcon_recv_packet (4 + 1)
        { connected [] false with
          inbox := feed (le32 9 ++ le32 1 ++ le32 0 ++ [] ++ [0] ++ []) [] }
      = Run.done (some { size := 9, id := 1, type := 0, body := [], empty := 0 })
          { connected [] false with inbox := feed [] [] } :=
  small_size_not_rejected 4 (connected [] false) 9 1 0 0 [] [] [] rfl (by decide)
    (by decide) (by decide) rfl

/-- C10 (counterexample). The frame with size field 9 is decoded into a
packet, not rejected; and for size field 0 the body length used is
`0 - 9` wrapped modulo `2^32`. -/
theorem small_size_counterexample :
    rcon_recv_packet 5 (connected [RecvEv.data (le32 9 ++ le32 1 ++ le32 0 ++ [0])] false)
      = Run.done (some { size := 9, id := 1, type := 0, body := [], empty := 0 })
          (connected [] false) ∧
    body_len 0 = 4294967287 :=
  ⟨rfl, rfl⟩

end RCON
